import Mathlib

/-!
Verification development for the LangChain-Agents repository: three example
agents (email, SQL, Obsidian notes) driven by an interruptible execution
engine with human-in-the-loop approval.  Pure parts of the agents (string
guards, the terminal decision prompt, the Obsidian note cache and vault
operations, the caller-side driver loops) are embedded directly from the
Python source; the execution engine itself (suspend, resume, gating,
checkpointing) lives in the external framework library and is modelled from
the specification where a claim depends on it.
-/

set_option autoImplicit false

/-! ## Python string primitives, embedded over lists of characters -/

/-- Embedding of Python str.strip (no arguments): drop whitespace from both
ends of the character list. -/
def pyStrip (l : List Char) : List Char :=
  ((l.dropWhile Char.isWhitespace).reverse.dropWhile Char.isWhitespace).reverse

/-- Embedding of Python str.upper, character by character. -/
def pyUpper (l : List Char) : List Char :=
  l.map Char.toUpper

/-- Embedding of Python str.lower, character by character. -/
def pyLower (l : List Char) : List Char :=
  l.map Char.toLower

/-- Embedding of Python str.startswith on character lists. -/
def startsWithL : List Char → List Char → Bool
  | [], _ => true
  | _ :: _, [] => false
  | p :: ps, c :: cs => p == c && startsWithL ps cs

/-- Membership of a character list in a list of character lists; embeds the
Python test (decision in [...]). -/
def memL (x : List Char) : List (List Char) → Bool
  | [] => false
  | y :: ys => x == y || memL x ys

/-! ## SQL agent tools (src/sql_agent/agent.py)

The database handle obtained through the runtime context is embedded as a
function dbRun from the query string to Except: an ok result models a normal
return of db.run and an error models a raised exception, whose text Python
interpolates into the f-string. -/

/-- Guard of execute_select_query:
query.strip().upper().startswith(quote SELECT quote). -/
def selectGuard (query : String) : Bool :=
  startsWithL "SELECT".data (pyUpper (pyStrip query.data))

/-- The seven leading keywords accepted by execute_write_query. -/
def writeCommands : List (List Char) :=
  ["INSERT".data, "UPDATE".data, "DELETE".data, "CREATE".data,
   "DROP".data, "ALTER".data, "TRUNCATE".data]

/-- Guard of execute_write_query: any(query_upper.startswith(cmd) for cmd in
[INSERT, UPDATE, DELETE, CREATE, DROP, ALTER, TRUNCATE]). -/
def writeGuard (query : String) : Bool :=
  writeCommands.any (fun cmd => startsWithL cmd (pyUpper (pyStrip query.data)))

/-- Refusal string returned by execute_select_query when its guard fails. -/
def selectRefusal : String := "Error: This tool only accepts SELECT queries"

/-- Refusal string returned by execute_write_query when its guard fails. -/
def writeRefusal : String :=
  "Error: This tool only accepts INSERT/UPDATE/DELETE/CREATE/DROP/ALTER/TRUNCATE queries"

/-- Embedding of the execute_select_query tool.  dbRun stands for db.run of
the runtime context database; a raised exception is an error value. -/
def execute_select_query (dbRun : String → Except String String) (query : String) : String :=
  if selectGuard query = false then
    selectRefusal
  else
    match dbRun query with
    | .ok result => "Query executed successfully:\n" ++ result
    | .error e => "Error: " ++ e

/-- Embedding of the execute_write_query tool. -/
def execute_write_query (dbRun : String → Except String String) (query : String) : String :=
  if writeGuard query = false then
    writeRefusal
  else
    match dbRun query with
    | .ok result => "Write query executed successfully:\n" ++ result
    | .error e => "Error: " ++ e

/-! ## Terminal approval prompts (get_user_decision in all three agents)

The interactive loop is embedded as a function of the sequence of strings
the user types: each call to input consumes one string, and the function
returns some verdict at the first input that hits an approve or reject
branch, or none when the sequence is exhausted while the Python loop would
still be waiting for input.  Printing is side-effect free and omitted. -/

/-- The inputs accepted as approval: [a, approve, yes, y]. -/
def approveSyns : List (List Char) :=
  ["a".data, "approve".data, "yes".data, "y".data]

/-- The inputs accepted as rejection: [r, reject, no, n]. -/
def rejectSyns : List (List Char) :=
  ["r".data, "reject".data, "no".data, "n".data]

/-- decision = input(...).strip().lower() applied to one typed string. -/
def normInput (s : String) : List Char :=
  pyLower (pyStrip s.data)

/-- get_user_decision of src/email_agent/agent.py: approve synonyms return
approve, reject synonyms return reject, anything else re-prompts. -/
def getUserDecisionEmail : List String → Option String
  | [] => none
  | i :: rest =>
    if memL (normInput i) approveSyns then some "approve"
    else if memL (normInput i) rejectSyns then some "reject"
    else getUserDecisionEmail rest

/-- get_user_decision of src/sql_agent/agent.py: as the email variant, but
with two extra branches, [v, view] and [p, preview], that print and then
re-prompt without returning. -/
def getUserDecisionSql : List String → Option String
  | [] => none
  | i :: rest =>
    if memL (normInput i) approveSyns then some "approve"
    else if memL (normInput i) rejectSyns then some "reject"
    else if memL (normInput i) ["v".data, "view".data] then getUserDecisionSql rest
    else if memL (normInput i) ["p".data, "preview".data] then getUserDecisionSql rest
    else getUserDecisionSql rest

/-- get_user_decision of src/obsidian_agent/agent.py; same decision logic as
the email variant. -/
def getUserDecisionObsidian : List String → Option String
  | [] => none
  | i :: rest =>
    if memL (normInput i) approveSyns then some "approve"
    else if memL (normInput i) rejectSyns then some "reject"
    else getUserDecisionObsidian rest

/-- An input that selects a verdict: its stripped lower-casing lies in the
approve or the reject synonym set. -/
def isVerdictInput (s : String) : Bool :=
  memL (normInput s) approveSyns || memL (normInput s) rejectSyns

/-- The first typed input that selects a verdict, if any. -/
def firstVerdictInput (inputs : List String) : Option String :=
  inputs.find? isVerdictInput

/-! ## Obsidian agent note tools (src/obsidian_agent/agent.py)

The vault directory is embedded as an association list from note title (the
stem of the .md file) to file content; the first binding of a title is the
one the file system sees.  The module-level variable _notes_cache together
with the vault forms the state threaded through the tools. -/

/-- The Obsidian vault on disk: note title to content. -/
abbrev Vault : Type := List (String × String)

/-- Path.exists for the file built from a note title. -/
def vexists (v : Vault) (title : String) : Bool :=
  (List.find? (fun p => p.1 == title) v).isSome

/-- Path.write_text: overwrite the content bound to the title, or create the
file when absent. -/
def vwrite (v : Vault) (title content : String) : Vault :=
  if vexists v title then
    v.map (fun p => if p.1 == title then (title, content) else p)
  else
    v ++ [(title, content)]

/-- Path.rename on a note file: rebind the old title to the new one. The
caller has checked that the new title is absent. -/
def vrename (v : Vault) (oldTitle newTitle : String) : Vault :=
  v.map (fun p => if p.1 == oldTitle then (newTitle, p.2) else p)

/-- ObsidianLoader.load followed by the comprehension building the cache
entries: title is the stem, or No Title when the stem is empty. -/
def readVault (v : Vault) : List (String × String) :=
  v.map (fun p => (if p.1 = "" then "No Title" else p.1, p.2))

/-- The state the note tools act on: the vault directory and the
module-level _notes_cache (None before the first load). -/
structure ObsState where
  vault : Vault
  cache : Option (List (String × String))
deriving DecidableEq

/-- load_notes: rebuild the cache from disk when it is None or force_reload
is set, otherwise return it as is. -/
def load_notes (force_reload : Bool) (s : ObsState) : List (String × String) × ObsState :=
  match s.cache, force_reload with
  | some c, false => (c, s)
  | _, _ =>
    let notes := readVault s.vault
    (notes, { s with cache := some notes })

/-- inspect_notes tool: load_notes() with the default flag. -/
def inspect_notes (s : ObsState) : List (String × String) × ObsState :=
  load_notes false s

/-- The ASCII apostrophe, used by the correct_note message strings. -/
def apos : String := String.singleton (Char.ofNat 39)

/-- correct_note tool, in source order: check the old file exists, write the
new content to the old path, then -- only when the title changes -- check the
new path and rename; the cache reload happens only on the two success
paths. -/
def correct_note (note_title new_note_title new_note_content : String)
    (s : ObsState) : String × ObsState :=
  if vexists s.vault note_title = false then
    ("Error: " ++ apos ++ note_title ++ apos ++ " not found", s)
  else
    let s1 : ObsState := { s with vault := vwrite s.vault note_title new_note_content }
    if note_title ≠ new_note_title then
      if vexists s1.vault new_note_title then
        ("Error: " ++ apos ++ new_note_title ++ apos ++ " already exists", s1)
      else
        let s2 : ObsState := { s1 with vault := vrename s1.vault note_title new_note_title }
        ("Updated and renamed to " ++ apos ++ new_note_title ++ apos, (load_notes true s2).2)
    else
      (apos ++ note_title ++ apos ++ " updated", (load_notes true s1).2)

/-! ## Execution engine

Modelled from the spec: the interruptible execution engine (sections 3 and 4
of the specification) is supplied by the agent framework library and is not
part of the repository sources; only its callers appear in src.  The data
model and the start, resume and drive-loop operations below follow the
specification text.  The drive loop takes fuel because the external planner
may request tools forever; running out of fuel is reported as the fatal
planner error of section 7. -/

/-- Modelled from the spec: the role of a Message. -/
inductive Role where
  | user | planner | tool
deriving DecidableEq

/-- Modelled from the spec: a tool call requested by the planner. -/
structure ToolCallRequest where
  id : String
  tool_name : String
  arguments : List (String × String)
deriving DecidableEq

/-- Modelled from the spec: one entry of the Message Log. -/
structure Message where
  role : Role
  content : String
  tool_calls : List ToolCallRequest
  tool_call_id : Option String
deriving DecidableEq

/-- Modelled from the spec: a closed verdict vocabulary. -/
inductive Verdict where
  | approve | reject
deriving DecidableEq

/-- Modelled from the spec: a decision against one pending request. -/
structure Decision where
  request_id : String
  verdict : Verdict
deriving DecidableEq

/-- Modelled from the spec: run status. -/
inductive Status where
  | running | suspended | completed
deriving DecidableEq

/-- Modelled from the spec: the persisted state of one thread. -/
structure RunState where
  thread_id : String
  message_log : List Message
  status : Status
  pending_requests : List ToolCallRequest
deriving DecidableEq

/-- Modelled from the spec: the value an invocation returns to the caller. -/
inductive RunOutcome where
  | Completed (final_text : String)
  | Suspended (pending : List ToolCallRequest)
deriving DecidableEq

/-- Modelled from the spec: the error taxonomy of section 7.  PlannerError
also covers fuel exhaustion of the modelled drive loop. -/
inductive EngineError where
  | DuplicateToolError | UnknownToolError
  | UnknownThreadError | NotSuspendedError | DuplicateRunError | DecisionMismatchError
  | PlannerError
deriving DecidableEq

/-- Modelled from the spec: a tool catalog entry with its gating flag. -/
structure ToolRegistration where
  name : String
  input_schema : String
  invoke : List (String × String) → Except String String
  gated : Bool

/-- Modelled from the spec: the Tool Registry, read-only during runs. -/
abbrev Registry : Type := List ToolRegistration

/-- Modelled from the spec: registry lookup by tool name. -/
def lookupTool (reg : Registry) (name : String) : Option ToolRegistration :=
  reg.find? (fun t => t.name == name)

/-- Modelled from the spec: the name and schema pairs handed to the planner;
gating flags stay internal. -/
def catalog (reg : Registry) : List (String × String) :=
  reg.map (fun t => (t.name, t.input_schema))

/-- Modelled from the spec: the planner's reply, a final text or requested
tool calls. -/
structure PlannerResponse where
  content : String
  tool_calls : List ToolCallRequest

/-- Modelled from the spec: the external planner as an opaque function of
the message log and the tool catalog. -/
abbrev Planner : Type := List Message → List (String × String) → PlannerResponse

/-- Modelled from the spec: the initial user message of a run. -/
def userMsg (text : String) : Message :=
  { role := .user, content := text, tool_calls := [], tool_call_id := none }

/-- Modelled from the spec: the planner message appended each turn. -/
def plannerMsg (resp : PlannerResponse) : Message :=
  { role := .planner, content := resp.content, tool_calls := resp.tool_calls,
    tool_call_id := none }

/-- Modelled from the spec: a tool-result message referencing its call. -/
def toolResultMsg (callId content : String) : Message :=
  { role := .tool, content := content, tool_calls := [], tool_call_id := some callId }

/-- Modelled from the spec: the rejected-by-reviewer marker result. -/
def rejectionMsg (req : ToolCallRequest) : Message :=
  toolResultMsg req.id "rejected by reviewer"

/-- Modelled from the spec: the decision supplied for a given request id. -/
def findDecision (ds : List Decision) (id : String) : Option Decision :=
  ds.find? (fun d => d.request_id == id)

/-- Modelled from the spec: the decision batch covers exactly the set of
pending request ids, no more and no less. -/
def decisionIdsMatch (ds : List Decision) (pending : List ToolCallRequest) : Bool :=
  ds.all (fun d => pending.any (fun r => r.id == d.request_id)) &&
  pending.all (fun r => ds.any (fun d => d.request_id == r.id))

/-- Modelled from the spec: invoke one tool through the registry; a tool
failure is caught and its text becomes the result payload. -/
def execCall (reg : Registry) (req : ToolCallRequest) : Except EngineError Message :=
  match lookupTool reg req.tool_name with
  | none => .error .UnknownToolError
  | some t =>
    match t.invoke req.arguments with
    | .ok r => .ok (toolResultMsg req.id r)
    | .error e => .ok (toolResultMsg req.id e)

/-- Modelled from the spec: execute a list of calls in order, returning the
result messages together with the trace of request ids actually invoked. -/
def execCalls (reg : Registry) : List ToolCallRequest → Except EngineError (List Message × List String)
  | [] => .ok ([], [])
  | req :: rest =>
    match execCall reg req with
    | .error e => .error e
    | .ok m =>
      match execCalls reg rest with
      | .error e => .error e
      | .ok (ms, tr) => .ok (m :: ms, req.id :: tr)

/-- Modelled from the spec: resume step 3.  Pending requests are handled in
original order; an approved request is invoked through the registry, a
rejected one gets the rejection marker and its tool is never invoked.  The
second component traces the request ids that were invoked. -/
def applyDecisions (reg : Registry) (ds : List Decision) :
    List ToolCallRequest → Except EngineError (List Message × List String)
  | [] => .ok ([], [])
  | req :: rest =>
    match findDecision ds req.id with
    | none => .error .DecisionMismatchError
    | some d =>
      match d.verdict with
      | .reject =>
        match applyDecisions reg ds rest with
        | .error e => .error e
        | .ok (ms, tr) => .ok (rejectionMsg req :: ms, tr)
      | .approve =>
        match execCall reg req with
        | .error e => .error e
        | .ok m =>
          match applyDecisions reg ds rest with
          | .error e => .error e
          | .ok (ms, tr) => .ok (m :: ms, req.id :: tr)

/-- Modelled from the spec: split a turn's tool calls into gated and ungated
ones, preserving order; unknown names fail the gating policy. -/
def partitionGated (reg : Registry) :
    List ToolCallRequest → Except EngineError (List ToolCallRequest × List ToolCallRequest)
  | [] => .ok ([], [])
  | req :: rest =>
    match lookupTool reg req.tool_name with
    | none => .error .UnknownToolError
    | some t =>
      match partitionGated reg rest with
      | .error e => .error e
      | .ok (g, u) => .ok (if t.gated then (req :: g, u) else (g, req :: u))

/-- Modelled from the spec: the drive loop of section 4.3, steps a to g. -/
def driveLoop (reg : Registry) (planner : Planner) :
    Nat → RunState → Except EngineError (RunOutcome × RunState)
  | 0, _ => .error .PlannerError
  | fuel + 1, st =>
    let resp := planner st.message_log (catalog reg)
    let log1 := st.message_log ++ [plannerMsg resp]
    if resp.tool_calls.isEmpty then
      .ok (.Completed resp.content,
        { st with message_log := log1, status := .completed, pending_requests := [] })
    else
      match partitionGated reg resp.tool_calls with
      | .error e => .error e
      | .ok (gated, ungated) =>
        match execCalls reg ungated with
        | .error e => .error e
        | .ok (msgs, _) =>
          let log2 := log1 ++ msgs
          if gated.isEmpty then
            driveLoop reg planner fuel
              { st with message_log := log2, status := .running, pending_requests := [] }
          else
            .ok (.Suspended gated,
              { st with
                  message_log := log2
                  status := .suspended
                  pending_requests := gated })

/-- Modelled from the spec: the checkpoint store, keyed by thread id. -/
abbrev Store : Type := List (String × RunState)

/-- Modelled from the spec: checkpoint load. -/
def loadState (store : Store) (tid : String) : Option RunState :=
  (store.find? (fun p => p.1 == tid)).map Prod.snd

/-- Modelled from the spec: checkpoint upsert, last writer wins. -/
def saveState (store : Store) (tid : String) (st : RunState) : Store :=
  if store.any (fun p => p.1 == tid) then
    store.map (fun p => if p.1 == tid then (tid, st) else p)
  else
    store ++ [(tid, st)]

/-- Modelled from the spec: the start operation of section 4.3.  Errors
leave the store untouched. -/
def startRun (reg : Registry) (planner : Planner) (fuel : Nat) (store : Store)
    (tid userText : String) : Except EngineError RunOutcome × Store :=
  match loadState store tid with
  | some _ => (.error .DuplicateRunError, store)
  | none =>
    let st0 : RunState :=
      { thread_id := tid, message_log := [userMsg userText],
        status := .running, pending_requests := [] }
    match driveLoop reg planner fuel st0 with
    | .error e => (.error e, store)
    | .ok (outcome, st1) => (.ok outcome, saveState store tid st1)

/-- Modelled from the spec: the resume operation of section 4.3, steps 1 to
4.  Any protocol error leaves the store untouched. -/
def resumeRun (reg : Registry) (planner : Planner) (fuel : Nat) (store : Store)
    (tid : String) (decisions : List Decision) : Except EngineError RunOutcome × Store :=
  match loadState store tid with
  | none => (.error .UnknownThreadError, store)
  | some st =>
    match st.status with
    | .suspended =>
      if decisionIdsMatch decisions st.pending_requests then
        match applyDecisions reg decisions st.pending_requests with
        | .error e => (.error e, store)
        | .ok (msgs, _) =>
          let st1 : RunState :=
            { st with
                message_log := st.message_log ++ msgs
                status := .running
                pending_requests := [] }
          match driveLoop reg planner fuel st1 with
          | .error e => (.error e, store)
          | .ok (outcome, st2) => (.ok outcome, saveState store tid st2)
      else
        (.error .DecisionMismatchError, store)
    | _ => (.error .NotSuspendedError, store)

/-! ## Caller-side driver loops (main of each agent in src) -/

/-- The request batch the email agent renders for decision, from
src/email_agent/agent.py: the loop reads only
interrupt value action_requests index -1, the last request. -/
def emailSelectedRequests (action_requests : List ToolCallRequest) : List ToolCallRequest :=
  match action_requests.getLast? with
  | some r => [r]
  | none => []

/-- The request batch the SQL agent renders for decision, from
src/sql_agent/agent.py: also only the last action request. -/
def sqlSelectedRequests (action_requests : List ToolCallRequest) : List ToolCallRequest :=
  match action_requests.getLast? with
  | some r => [r]
  | none => []

/-- The request batch the Obsidian agent renders for decision, from
src/obsidian_agent/agent.py: the for loop visits every action request of the
interrupt in order. -/
def obsidianSelectedRequests (action_requests : List ToolCallRequest) : List ToolCallRequest :=
  action_requests

/-- The while loop of main over the modelled engine, counting how many
resume invocations it issues for the thread; the loop body runs only while
the previous outcome was an interrupt. -/
def mainLoopResumes (reg : Registry) (planner : Planner) (fuel : Nat)
    (decisionFn : List ToolCallRequest → List Decision) (tid : String) :
    Nat → Store → RunOutcome → Nat
  | 0, _, _ => 0
  | n + 1, store, outcome =>
    match outcome with
    | .Completed _ => 0
    | .Suspended pending =>
      match resumeRun reg planner fuel store tid (decisionFn pending) with
      | (.ok next, store1) => 1 + mainLoopResumes reg planner fuel decisionFn tid n store1 next
      | (.error _, _) => 1

/-! ## Concrete fixtures used by witnesses and counterexamples -/

/-- Modelled from the spec: the decision batch that rejects every pending
request of an interrupt. -/
def rejectAll (pending : List ToolCallRequest) : List Decision :=
  pending.map (fun r => { request_id := r.id, verdict := .reject })

/-- A gated email-send request, as in the concrete scenario of section 8. -/
def req0 : ToolCallRequest :=
  { id := "call_1", tool_name := "send_email", arguments := [("recipient", "mark")] }

/-- First of two pending note-correction requests. -/
def reqA : ToolCallRequest :=
  { id := "call_a", tool_name := "correct_note", arguments := [] }

/-- Second of two pending note-correction requests. -/
def reqB : ToolCallRequest :=
  { id := "call_b", tool_name := "correct_note", arguments := [] }

/-- A one-tool registry whose single tool is gated. -/
def reg0 : Registry :=
  [{ name := "send_email", input_schema := "recipient, subject, body",
     invoke := fun _ => .ok "sent", gated := true }]

/-- A planner that immediately answers with no tool calls. -/
def plannerDone : Planner :=
  fun _ _ => { content := "done", tool_calls := [] }

/-- A planner that requests the gated call req0. -/
def plannerCall : Planner :=
  fun _ _ => { content := "calling", tool_calls := [req0] }

/-- A run suspended on the single pending request req0. -/
def stSusp : RunState :=
  { thread_id := "1", message_log := [], status := .suspended, pending_requests := [req0] }

/-- A completed run. -/
def stDone : RunState :=
  { thread_id := "1", message_log := [], status := .completed, pending_requests := [] }

/-- A freshly started running state. -/
def stRun : RunState :=
  { thread_id := "1", message_log := [], status := .running, pending_requests := [] }

/-- A store holding the suspended run. -/
def storeSusp : Store := [("1", stSusp)]

/-- A store holding the completed run. -/
def storeDone : Store := [("1", stDone)]

/-- A two-note vault in which both the old and the new title exist. -/
def vaultAB : Vault := [("A", "old"), ("B", "bee")]

/-- The state after the notes of vaultAB have been loaded into the cache. -/
def sAB : ObsState := { vault := vaultAB, cache := some [("A", "old"), ("B", "bee")] }

/-- A second two-note vault for the cache-staleness counterexample. -/
def vaultXY : Vault := [("X", "one"), ("Y", "two")]

/-- The state after the notes of vaultXY have been loaded into the cache. -/
def sXY : ObsState := { vault := vaultXY, cache := some [("X", "one"), ("Y", "two")] }

/-! ## Helper lemmas -/

/-- Forcing a reload rebuilds the cache from disk whatever it held. -/
theorem load_notes_force (s : ObsState) :
    load_notes true s = (readVault s.vault, { s with cache := some (readVault s.vault) }) := by
  cases s with
  | mk v c => cases c <;> rfl

/-- A default load on a filled cache returns it and changes nothing. -/
theorem load_notes_cached (v : Vault) (c : List (String × String)) :
    load_notes false { vault := v, cache := some c } = (c, { vault := v, cache := some c }) :=
  rfl

/-- A default load on an empty cache rebuilds it from disk. -/
theorem load_notes_cold (v : Vault) :
    load_notes false { vault := v, cache := none } =
      (readVault v, { vault := v, cache := some (readVault v) }) :=
  rfl

/-! ## Claims about the Obsidian note cache -/

/-- C10: load_notes caches lazily: a forced call and a first call rebuild the
cache from the vault on disk; a default call on a filled cache returns the
cached list unchanged, so repeated default calls after any call at all return
the identical value and state. -/
theorem c10_load_notes_caching :
    (∀ s : ObsState, load_notes true s =
      (readVault s.vault, { s with cache := some (readVault s.vault) })) ∧
    (∀ v : Vault, load_notes false { vault := v, cache := none } =
      (readVault v, { vault := v, cache := some (readVault v) })) ∧
    (∀ (v : Vault) (c : List (String × String)),
      load_notes false { vault := v, cache := some c } = (c, { vault := v, cache := some c })) ∧
    (∀ (b : Bool) (s : ObsState),
      load_notes false (load_notes b s).2 = ((load_notes b s).1, (load_notes b s).2)) := by
  refine ⟨load_notes_force, load_notes_cold, load_notes_cached, ?_⟩
  intro b s
  cases s with
  | mk v c => cases c <;> cases b <;> rfl

/-- C9: with vault vaultAB, where note A and note B both exist, correcting A
into title B first overwrites the file of A with the new content, then
returns the already-exists error without renaming and without touching the
cache, which keeps the stale pre-write listing. -/
theorem c9_error_after_overwrite :
    correct_note "A" "B" "new" sAB =
      ("Error: " ++ apos ++ "B" ++ apos ++ " already exists",
       { vault := [("A", "new"), ("B", "bee")], cache := some [("A", "old"), ("B", "bee")] }) ∧
    (correct_note "A" "B" "new" sAB).2.vault ≠ sAB.vault ∧
    (correct_note "A" "B" "new" sAB).2.cache = sAB.cache ∧
    vexists (correct_note "A" "B" "new" sAB).2.vault "A" = true := by
  refine ⟨?_, by decide, by decide, by decide⟩
  decide

/-- C5 counterexample: correcting note X of vaultXY into the occupied title
Y modifies the vault (X is overwritten on disk) yet the cache is not
invalidated, so the next inspect_notes disagrees with the vault on disk. -/
theorem c5_counterexample :
    (correct_note "X" "Y" "zzz" sXY).2.vault ≠ sXY.vault ∧
    (inspect_notes (correct_note "X" "Y" "zzz" sXY).2).1 ≠
      readVault (correct_note "X" "Y" "zzz" sXY).2.vault := by
  decide

/-- C5 amended: after every invocation of correct_note that does not take
the already-exists error path (the title is kept, or the new title is free),
the cache is reloaded with force_reload and a subsequent inspect_notes
agrees with the vault on disk; on the already-exists error path the note has
been overwritten but the cache is left stale. -/
theorem c5_cache_invalidated_on_success :
    ∀ (nt nnt nc : String) (s : ObsState),
      vexists s.vault nt = true →
      (nt = nnt ∨ vexists (vwrite s.vault nt nc) nnt = false) →
      (correct_note nt nnt nc s).2.cache =
        some (readVault (correct_note nt nnt nc s).2.vault) ∧
      (inspect_notes (correct_note nt nnt nc s).2).1 =
        readVault (correct_note nt nnt nc s).2.vault := by
  intro nt nnt nc s h1 h2
  by_cases hnn : nt = nnt
  · subst hnn
    simp [correct_note, h1, load_notes_force, inspect_notes, load_notes_cached]
  · rcases h2 with h2 | h2
    · exact absurd h2 hnn
    · simp [correct_note, h1, hnn, h2, load_notes_force, inspect_notes, load_notes_cached]

/-- C5 witness: a concrete in-place update, where the amended claim shows
the reloaded cache agrees with the disk. -/
theorem c5_witness :
    vexists ([("X", "one")] : Vault) "X" = true ∧
    (correct_note "X" "X" "new" ⟨[("X", "one")], some [("X", "one")]⟩).2.cache =
      some (readVault (correct_note "X" "X" "new" ⟨[("X", "one")], some [("X", "one")]⟩).2.vault) :=
  ⟨by decide,
   (c5_cache_invalidated_on_success "X" "X" "new" ⟨[("X", "one")], some [("X", "one")]⟩
     (by decide) (Or.inl rfl)).1⟩

/-! ## Claims about the SQL tools -/

/-- C4: when the database call fails, both SQL tools catch the exception and
return its text prefixed by Error as the tool-result string; the tools are
total, so the failure never escapes the tool. -/
theorem c4_tool_errors_caught :
    ∀ (dbRun : String → Except String String) (q e : String),
      (selectGuard q = true → dbRun q = .error e →
        execute_select_query dbRun q = "Error: " ++ e ∧
        ∃ t, execute_select_query dbRun q = "Error:" ++ t) ∧
      (writeGuard q = true → dbRun q = .error e →
        execute_write_query dbRun q = "Error: " ++ e ∧
        ∃ t, execute_write_query dbRun q = "Error:" ++ t) := by
  intro dbRun q e
  constructor
  · intro hg hd
    have hr : execute_select_query dbRun q = "Error: " ++ e := by
      simp [execute_select_query, hg, hd]
    refine ⟨hr, " " ++ e, ?_⟩
    rw [hr]
    cases e with
    | mk d => rfl
  · intro hg hd
    have hr : execute_write_query dbRun q = "Error: " ++ e := by
      simp [execute_write_query, hg, hd]
    refine ⟨hr, " " ++ e, ?_⟩
    rw [hr]
    cases e with
    | mk d => rfl

/-- C4 witness: a database that always raises, observed through both tools
on queries passing the guards. -/
theorem c4_witness :
    execute_select_query (fun _ => Except.error "boom") "SELECT 1" = "Error: boom" ∧
    execute_write_query (fun _ => Except.error "boom") "DELETE FROM t" = "Error: boom" :=
  ⟨((c4_tool_errors_caught (fun _ => Except.error "boom") "SELECT 1" "boom").1
      (by decide) rfl).1,
   ((c4_tool_errors_caught (fun _ => Except.error "boom") "DELETE FROM t" "boom").2
      (by decide) rfl).1⟩

/-- C8: each SQL tool consults the database only when its leading-keyword
guard passes: on a failing guard the result is the fixed refusal string and
is independent of the database; the guard looks only at the leading keyword
of the stripped upper-cased query, as the concrete instances show. -/
theorem c8_prefix_guards :
    (∀ (db1 db2 : String → Except String String) (q : String),
      selectGuard q = false →
        execute_select_query db1 q = selectRefusal ∧
        execute_select_query db1 q = execute_select_query db2 q) ∧
    (∀ (db1 db2 : String → Except String String) (q : String),
      writeGuard q = false →
        execute_write_query db1 q = writeRefusal ∧
        execute_write_query db1 q = execute_write_query db2 q) ∧
    selectGuard "SELECT name FROM artists; DROP TABLE artists" = true ∧
    writeGuard "  delete from artists where 1=1" = true ∧
    selectGuard "INSERT INTO artists VALUES (1)" = false ∧
    writeGuard "SELECT 1" = false := by
  refine ⟨?_, ?_, by decide, by decide, by decide, by decide⟩
  · intro db1 db2 q hg
    constructor <;> simp [execute_select_query, hg]
  · intro db1 db2 q hg
    constructor <;> simp [execute_write_query, hg]

/-- C8 witness: a query refused by the select guard gives the refusal string
under two different databases. -/
theorem c8_witness :
    execute_select_query (fun _ => Except.ok "rows") "DROP TABLE artists" = selectRefusal ∧
    execute_write_query (fun _ => Except.ok "rows") "SELECT 1" = writeRefusal :=
  ⟨((c8_prefix_guards.1 (fun _ => Except.ok "rows") (fun _ => Except.error "x")
      "DROP TABLE artists") (by decide)).1,
   ((c8_prefix_guards.2.1 (fun _ => Except.ok "rows") (fun _ => Except.error "x")
      "SELECT 1") (by decide)).1⟩

theorem approve_reject_disjoint (d : List Char) :
    memL d approveSyns = true → memL d rejectSyns = true → False := by
  intro h1 h2
  simp only [approveSyns, memL, Bool.or_eq_true, beq_iff_eq] at h1
  rcases h1 with rfl | rfl | rfl | rfl | h
  · revert h2; decide
  · revert h2; decide
  · revert h2; decide
  · revert h2; decide
  · simp at h

theorem getUserDecisionSql_eq (inputs : List String) :
    getUserDecisionSql inputs = getUserDecisionEmail inputs := by
  induction inputs with
  | nil => rfl
  | cons i rest ih =>
    simp only [getUserDecisionSql, getUserDecisionEmail]
    split_ifs <;> first | rfl | exact ih

theorem getUserDecisionEmail_spec (inputs : List String) :
    (getUserDecisionEmail inputs = some "approve" ↔
      ∃ s, firstVerdictInput inputs = some s ∧ memL (normInput s) approveSyns = true) ∧
    (getUserDecisionEmail inputs = some "reject" ↔
      ∃ s, firstVerdictInput inputs = some s ∧ memL (normInput s) rejectSyns = true) ∧
    (getUserDecisionEmail inputs = none ∨ getUserDecisionEmail inputs = some "approve" ∨
      getUserDecisionEmail inputs = some "reject") := by
  induction inputs with
  | nil =>
    refine ⟨?_, ?_, Or.inl rfl⟩ <;> simp [getUserDecisionEmail, firstVerdictInput]
  | cons i rest ih =>
    by_cases ha : memL (normInput i) approveSyns = true
    · have hv : isVerdictInput i = true := by simp [isVerdictInput, ha]
      have hfv : firstVerdictInput (i :: rest) = some i := by
        simp [firstVerdictInput, List.find?, hv]
      have hg : getUserDecisionEmail (i :: rest) = some "approve" := by
        simp [getUserDecisionEmail, ha]
      refine ⟨?_, ?_, Or.inr (Or.inl hg)⟩
      · rw [hg, hfv]
        exact ⟨fun _ => ⟨i, rfl, ha⟩, fun _ => rfl⟩
      · rw [hg, hfv]
        constructor
        · intro h; exact absurd h (by decide)
        · rintro ⟨s, hs, hr⟩
          injection hs with hs
          subst hs
          exact (approve_reject_disjoint _ ha hr).elim
    · by_cases hr : memL (normInput i) rejectSyns = true
      · have hv : isVerdictInput i = true := by simp [isVerdictInput, hr]
        have hfv : firstVerdictInput (i :: rest) = some i := by
          simp [firstVerdictInput, List.find?, hv]
        have hg : getUserDecisionEmail (i :: rest) = some "reject" := by
          simp [getUserDecisionEmail, ha, hr]
        refine ⟨?_, ?_, Or.inr (Or.inr hg)⟩
        · rw [hg, hfv]
          constructor
          · intro h; exact absurd h (by decide)
          · rintro ⟨s, hs, hra⟩
            injection hs with hs
            subst hs
            exact (approve_reject_disjoint _ hra hr).elim
        · rw [hg, hfv]
          exact ⟨fun _ => ⟨i, rfl, hr⟩, fun _ => rfl⟩
      · have hv : isVerdictInput i = false := by simp [isVerdictInput, ha, hr]
        have hfv : firstVerdictInput (i :: rest) = firstVerdictInput rest := by
          simp [firstVerdictInput, List.find?, hv]
        have hg : getUserDecisionEmail (i :: rest) = getUserDecisionEmail rest := by
          simp [getUserDecisionEmail, ha, hr]
        rw [hg, hfv]
        exact ih

/-- The Obsidian prompt computes the same verdict as the email prompt. -/
theorem getUserDecisionObsidian_eq (inputs : List String) :
    getUserDecisionObsidian inputs = getUserDecisionEmail inputs := by
  induction inputs with
  | nil => rfl
  | cons i rest ih =>
    simp only [getUserDecisionObsidian, getUserDecisionEmail]
    split_ifs <;> first | rfl | exact ih

/-- C3: in all three agents the prompt returns approve exactly when the
first input whose stripped lower-casing is a verdict synonym is an approve
synonym (a, approve, yes, y), reject exactly when it is a reject synonym
(r, reject, no, n), keeps prompting on every other input, and never
produces a verdict outside approve and reject. -/
theorem c3_decision_vocabulary :
    ∀ inputs : List String,
      (getUserDecisionEmail inputs = some "approve" ↔
        ∃ s, firstVerdictInput inputs = some s ∧ memL (normInput s) approveSyns = true) ∧
      (getUserDecisionEmail inputs = some "reject" ↔
        ∃ s, firstVerdictInput inputs = some s ∧ memL (normInput s) rejectSyns = true) ∧
      (getUserDecisionEmail inputs = none ∨ getUserDecisionEmail inputs = some "approve" ∨
        getUserDecisionEmail inputs = some "reject") ∧
      getUserDecisionSql inputs = getUserDecisionEmail inputs ∧
      getUserDecisionObsidian inputs = getUserDecisionEmail inputs :=
  fun inputs =>
    ⟨(getUserDecisionEmail_spec inputs).1, (getUserDecisionEmail_spec inputs).2.1,
     (getUserDecisionEmail_spec inputs).2.2, getUserDecisionSql_eq inputs,
     getUserDecisionObsidian_eq inputs⟩

/-- C1: resuming a suspended run whose decision batch does not identify by
request id exactly the pending batch fails with DecisionMismatchError and
leaves the checkpoint store, hence the RunState, unchanged; conversely a
resume that returns an outcome had a decision batch matching the pending
request ids exactly. -/
theorem c1_atomic_batch_resume :
    ∀ (reg : Registry) (planner : Planner) (fuel : Nat) (store : Store) (tid : String)
      (st : RunState) (decisions : List Decision),
      loadState store tid = some st → st.status = .suspended →
      (decisionIdsMatch decisions st.pending_requests = false →
        resumeRun reg planner fuel store tid decisions = (.error .DecisionMismatchError, store)) ∧
      (∀ (outcome : RunOutcome) (store1 : Store),
        resumeRun reg planner fuel store tid decisions = (.ok outcome, store1) →
        decisionIdsMatch decisions st.pending_requests = true) := by
  intro reg planner fuel store tid st decisions hload hst
  constructor
  · intro hmm
    simp [resumeRun, hload, hst, hmm]
  · intro outcome store1 h
    cases hmatch : decisionIdsMatch decisions st.pending_requests with
    | true => rfl
    | false => simp [resumeRun, hload, hst, hmatch] at h

/-- C1 witness: resuming the suspended store with the single unkeyed
decision the source callers send is refused and the store is unchanged. -/
theorem c1_witness :
    resumeRun reg0 plannerDone 1 storeSusp "1"
        [{ request_id := "", verdict := .approve }] =
      (.error .DecisionMismatchError, storeSusp) :=
  (c1_atomic_batch_resume reg0 plannerDone 1 storeSusp "1" stSusp
      [{ request_id := "", verdict := .approve }] rfl rfl).1 (by decide)

/-- C6: completed is terminal: the caller-side while loop issues no resume
once an invocation returned a completed outcome, and any further resume of a
completed thread fails with NotSuspendedError, store unchanged. -/
theorem c6_completed_terminal :
    ∀ (reg : Registry) (planner : Planner) (fuel : Nat)
      (decisionFn : List ToolCallRequest → List Decision) (tid : String),
      (∀ (store : Store) (st : RunState) (decisions : List Decision),
        loadState store tid = some st → st.status = .completed →
        resumeRun reg planner fuel store tid decisions = (.error .NotSuspendedError, store)) ∧
      (∀ (n : Nat) (store : Store) (t : String),
        mainLoopResumes reg planner fuel decisionFn tid n store (.Completed t) = 0) := by
  intro reg planner fuel decisionFn tid
  constructor
  · intro store st decisions hload hst
    simp [resumeRun, hload, hst]
  · intro n store t
    cases n <;> rfl

/-- C6 witness: the store holding the completed run refuses a resume, and
the driver loop issues zero resumes after a completed outcome. -/
theorem c6_witness :
    resumeRun reg0 plannerDone 1 storeDone "1" [] = (.error .NotSuspendedError, storeDone) ∧
    mainLoopResumes reg0 plannerDone 1 (fun _ => []) "1" 3 [] (.Completed "done") = 0 :=
  ⟨(c6_completed_terminal reg0 plannerDone 1 (fun _ => []) "1").1 storeDone stDone [] rfl rfl,
   (c6_completed_terminal reg0 plannerDone 1 (fun _ => []) "1").2 3 [] "done"⟩

/-- Whatever applyDecisions invokes is one of the pending requests: the
trace only holds ids of the batch. -/
theorem applyDecisions_trace_subset :
    ∀ (reg : Registry) (ds : List Decision) (pending : List ToolCallRequest)
      (ms : List Message) (tr : List String),
      applyDecisions reg ds pending = .ok (ms, tr) →
      ∀ x ∈ tr, x ∈ pending.map ToolCallRequest.id := by
  intro reg ds pending
  induction pending with
  | nil =>
    intro ms tr h
    simp only [applyDecisions] at h
    obtain ⟨hms, htr⟩ := Prod.mk.injEq .. ▸ (Except.ok.inj h)
    subst htr
    simp
  | cons p rest ih =>
    intro ms tr h
    simp only [applyDecisions] at h
    cases hpd : findDecision ds p.id with
    | none => simp [hpd] at h
    | some dp =>
      cases hvp : dp.verdict with
      | reject =>
        cases hrest : applyDecisions reg ds rest with
        | error e => simp [hpd, hvp, hrest] at h
        | ok pr =>
          obtain ⟨ms0, tr0⟩ := pr
          simp [hpd, hvp, hrest] at h
          obtain ⟨hms, htr⟩ := h
          subst htr
          intro x hx
          simp only [List.map_cons, List.mem_cons]
          exact Or.inr (ih ms0 tr0 hrest x hx)
      | approve =>
        cases hec : execCall reg p with
        | error e => simp [hpd, hvp, hec] at h
        | ok m =>
          cases hrest : applyDecisions reg ds rest with
          | error e => simp [hpd, hvp, hec, hrest] at h
          | ok pr =>
            obtain ⟨ms0, tr0⟩ := pr
            simp [hpd, hvp, hec, hrest] at h
            obtain ⟨hms, htr⟩ := h
            subst htr
            intro x hx
            simp only [List.map_cons, List.mem_cons]
            rcases List.mem_cons.mp hx with rfl | hx2
            · exact Or.inl rfl
            · exact Or.inr (ih ms0 tr0 hrest x hx2)

/-- When every pending request finds a rejecting decision, applying the
batch succeeds, appends exactly the rejection markers in order, and invokes
nothing. -/
theorem applyDecisions_all_reject :
    ∀ (reg : Registry) (ds : List Decision) (pending : List ToolCallRequest),
      (∀ r ∈ pending, ∃ d, findDecision ds r.id = some d ∧ d.verdict = .reject) →
      applyDecisions reg ds pending = .ok (pending.map rejectionMsg, []) := by
  intro reg ds pending
  induction pending with
  | nil => intro _; rfl
  | cons p rest ih =>
    intro hcov
    obtain ⟨d, hd, hv⟩ := hcov p (List.mem_cons_self p rest)
    have hrest := ih (fun r hr => hcov r (List.mem_cons_of_mem p hr))
    simp [applyDecisions, hd, hv, hrest]

/-- Every request of a batch is covered by a rejecting decision in the
batch built by rejectAll. -/
theorem rejectAll_covers :
    ∀ (pending : List ToolCallRequest) (r : ToolCallRequest), r ∈ pending →
      ∃ d, findDecision (rejectAll pending) r.id = some d ∧ d.verdict = .reject := by
  intro pending
  induction pending with
  | nil => intro r hr; cases hr
  | cons p rest ih =>
    intro r hr
    cases hbeq : p.id == r.id with
    | true =>
      refine ⟨{ request_id := p.id, verdict := .reject }, ?_, rfl⟩
      simp [rejectAll, findDecision, List.find?, hbeq]
    | false =>
      rcases List.mem_cons.mp hr with rfl | hr2
      · simp at hbeq
      · obtain ⟨d, hd, hv⟩ := ih r hr2
        refine ⟨d, ?_, hv⟩
        simpa [rejectAll, findDecision, List.find?, hbeq] using hd

/-- C7: in the resume step, a pending request whose decision is reject is
never invoked (its id is absent from the invocation trace) and the
rejection-marker tool result is appended for it; a batch rejecting
everything always succeeds, producing exactly the markers and an empty
trace, so rejecting never raises an error. -/
theorem c7_reject_never_invokes :
    (∀ (reg : Registry) (ds : List Decision) (pending : List ToolCallRequest)
       (ms : List Message) (tr : List String) (req : ToolCallRequest) (d : Decision),
       applyDecisions reg ds pending = .ok (ms, tr) →
       req ∈ pending →
       findDecision ds req.id = some d → d.verdict = .reject →
       rejectionMsg req ∈ ms ∧ ((pending.map ToolCallRequest.id).Nodup → req.id ∉ tr)) ∧
    (∀ (reg : Registry) (pending : List ToolCallRequest),
       applyDecisions reg (rejectAll pending) pending = .ok (pending.map rejectionMsg, [])) := by
  constructor
  · intro reg ds pending
    induction pending with
    | nil =>
      intro ms tr req d _ hmem _ _
      cases hmem
    | cons p rest ih =>
      intro ms tr req d h hmem hfd hv
      simp only [applyDecisions] at h
      cases hpd : findDecision ds p.id with
      | none => simp [hpd] at h
      | some dp =>
        cases hvp : dp.verdict with
        | reject =>
          cases hrest : applyDecisions reg ds rest with
          | error e => simp [hpd, hvp, hrest] at h
          | ok pr =>
            obtain ⟨ms0, tr0⟩ := pr
            simp [hpd, hvp, hrest] at h
            obtain ⟨hms, htr⟩ := h
            subst hms
            subst htr
            rcases List.mem_cons.mp hmem with rfl | hmem2
            · refine ⟨List.mem_cons_self _ _, ?_⟩
              intro hnd hin
              have hsub := applyDecisions_trace_subset reg ds rest ms0 tr0 hrest req.id hin
              exact (List.nodup_cons.mp hnd).1 hsub
            · obtain ⟨h1, h2⟩ := ih ms0 tr0 req d hrest hmem2 hfd hv
              refine ⟨List.mem_cons_of_mem _ h1, ?_⟩
              intro hnd
              exact h2 (List.nodup_cons.mp hnd).2
        | approve =>
          cases hec : execCall reg p with
          | error e => simp [hpd, hvp, hec] at h
          | ok m =>
            cases hrest : applyDecisions reg ds rest with
            | error e => simp [hpd, hvp, hec, hrest] at h
            | ok pr =>
              obtain ⟨ms0, tr0⟩ := pr
              simp [hpd, hvp, hec, hrest] at h
              obtain ⟨hms, htr⟩ := h
              subst hms
              subst htr
              rcases List.mem_cons.mp hmem with rfl | hmem2
              · rw [hfd] at hpd
                have : d = dp := Option.some.inj hpd
                rw [this, hvp] at hv
                cases hv
              · obtain ⟨h1, h2⟩ := ih ms0 tr0 req d hrest hmem2 hfd hv
                refine ⟨List.mem_cons_of_mem _ h1, ?_⟩
                intro hnd
                have hne : req.id ≠ p.id := by
                  intro heq
                  apply (List.nodup_cons.mp hnd).1
                  rw [← heq]
                  exact List.mem_map_of_mem ToolCallRequest.id hmem2
                simp only [List.mem_cons]
                rintro (heq | hin)
                · exact hne heq
                · exact h2 (List.nodup_cons.mp hnd).2 hin
  · intro reg pending
    exact applyDecisions_all_reject reg (rejectAll pending) pending
      (fun r hr => rejectAll_covers pending r hr)

/-- C7 witness: the rejected send-email request produces the marker message,
an empty invocation trace, and no error. -/
theorem c7_witness :
    rejectionMsg req0 ∈ [rejectionMsg req0] ∧
    applyDecisions reg0 (rejectAll [req0]) [req0] = .ok ([rejectionMsg req0], []) :=
  ⟨(c7_reject_never_invokes.1 reg0 (rejectAll [req0]) [req0] [rejectionMsg req0] []
      req0 { request_id := req0.id, verdict := .reject }
      (c7_reject_never_invokes.2 reg0 [req0]) (List.mem_cons_self _ _) (by decide) rfl).1,
   c7_reject_never_invokes.2 reg0 [req0]⟩

/-- C2 counterexample: given an interrupt carrying two pending requests, the
email and SQL driver loops render only the last action request for decision,
so the first pending request is never presented. -/
theorem c2_counterexample :
    emailSelectedRequests [reqA, reqB] = [reqB] ∧
    reqA ∉ emailSelectedRequests [reqA, reqB] ∧
    sqlSelectedRequests [reqA, reqB] = [reqB] ∧
    reqA ∉ sqlSelectedRequests [reqA, reqB] := by
  decide

/-- C2 amended: every suspension returned by the engine carries the full
pending batch (the suspended state stores exactly the requests of the
interrupt), and the Obsidian agent renders all of them; the email and SQL
agents, however, render only the last action request of the batch. -/
theorem c2_suspension_carries_full_batch :
    (∀ (reg : Registry) (planner : Planner) (fuel : Nat) (st st1 : RunState)
       (pending : List ToolCallRequest),
       driveLoop reg planner fuel st = .ok (.Suspended pending, st1) →
       st1.pending_requests = pending ∧ st1.status = .suspended) ∧
    (∀ reqs : List ToolCallRequest, obsidianSelectedRequests reqs = reqs) ∧
    (∀ (reqs : List ToolCallRequest) (r : ToolCallRequest),
       emailSelectedRequests (reqs ++ [r]) = [r] ∧
       sqlSelectedRequests (reqs ++ [r]) = [r]) := by
  refine ⟨?_, fun reqs => rfl, ?_⟩
  · intro reg planner fuel
    induction fuel with
    | zero =>
      intro st st1 pending h
      simp [driveLoop] at h
    | succ n ih =>
      intro st st1 pending h
      simp only [driveLoop] at h
      split at h
      · simp at h
      · split at h
        · simp at h
        · split at h
          · simp at h
          · split at h
            · exact ih _ st1 pending h
            · simp only [Except.ok.injEq, Prod.mk.injEq] at h
              obtain ⟨hout, hst⟩ := h
              obtain rfl := RunOutcome.Suspended.inj hout
              subst hst
              exact ⟨rfl, rfl⟩
  · intro reqs r
    constructor <;> simp [emailSelectedRequests, sqlSelectedRequests, List.getLast?_concat]

/-- C2 witness: a one-turn run with a single gated request suspends with
that request as the stored pending batch. -/
theorem c2_witness :
    ({ thread_id := "1",
       message_log := [plannerMsg { content := "calling", tool_calls := [req0] }],
       status := .suspended, pending_requests := [req0] } : RunState).pending_requests = [req0] ∧
    ({ thread_id := "1",
       message_log := [plannerMsg { content := "calling", tool_calls := [req0] }],
       status := .suspended, pending_requests := [req0] } : RunState).status = .suspended :=
  c2_suspension_carries_full_batch.1 reg0 plannerCall 1 stRun _ [req0] rfl
